import Mathlib

/-!
Shallow embedding of the `neuralhash_macos` Python package
(`neuralhash_macos/hasher.py`, `neuralhash_macos/exceptions.py`,
`neuralhash_macos/cli.py`) together with proofs about its behaviour.

The native Vision / PyObjC world is modelled as an explicit environment
record describing how each bridged call would answer; the Python functions
are translated into pure Lean functions over that environment.  Python
`bytes` values are modelled as `List Nat` with each element `< 256`.
-/

set_option maxHeartbeats 1000000

/-- Exception classes of `neuralhash_macos/exceptions.py`.  `NeuralHashErrorC`
is the base class; the other four are its direct subclasses. -/
inductive NHClass where
  | NeuralHashErrorC
  | PyObjCNotAvailableErrorC
  | VisionAPIErrorC
  | ImageProcessingErrorC
  | InvalidFormatErrorC
deriving DecidableEq, Repr

/-- A raised exception value: its dynamic class together with its message.
Each constructor corresponds to raising one concrete class from
`exceptions.py`. -/
inductive NHError where
  | neuralHashError : String → NHError
  | pyObjCNotAvailableError : String → NHError
  | visionAPIError : String → NHError
  | imageProcessingError : String → NHError
  | invalidFormatError : String → NHError
deriving DecidableEq, Repr

instance exceptDecEq {ε α : Type} [DecidableEq ε] [DecidableEq α] :
    DecidableEq (Except ε α)
  | .error x, .error y =>
    if h : x = y then isTrue (by rw [h])
    else isFalse (fun hc => h (by injection hc))
  | .error _, .ok _ => isFalse (fun hc => Except.noConfusion hc)
  | .ok _, .error _ => isFalse (fun hc => Except.noConfusion hc)
  | .ok x, .ok y =>
    if h : x = y then isTrue (by rw [h])
    else isFalse (fun hc => h (by injection hc))

/-- Dynamic class of a raised exception. -/
def NHError.cls : NHError → NHClass
  | .neuralHashError _ => .NeuralHashErrorC
  | .pyObjCNotAvailableError _ => .PyObjCNotAvailableErrorC
  | .visionAPIError _ => .VisionAPIErrorC
  | .imageProcessingError _ => .ImageProcessingErrorC
  | .invalidFormatError _ => .InvalidFormatErrorC

/-- Message carried by a raised exception. -/
def NHError.msg : NHError → String
  | .neuralHashError m => m
  | .pyObjCNotAvailableError m => m
  | .visionAPIError m => m
  | .imageProcessingError m => m
  | .invalidFormatError m => m

/-- Python `isinstance` over the exception hierarchy of `exceptions.py`:
every class is an instance of itself and of the base `NeuralHashError`. -/
def NHError.isInstanceOf (e : NHError) (c : NHClass) : Bool :=
  c = .NeuralHashErrorC || e.cls = c

/-- Enum `OutputFormat` of `hasher.py` (members `HEX`, `BASE64`, `BITS`). -/
inductive OutputFormat where
  | HEX
  | BASE64
  | BITS
deriving DecidableEq, Repr

/-- Member values of the `OutputFormat` enum (`"hex"`, `"base64"`, `"bits"`). -/
def OutputFormat.value : OutputFormat → String
  | .HEX => "hex"
  | .BASE64 => "base64"
  | .BITS => "bits"

/-- Python value lookup `OutputFormat(s)`: the member whose `value` equals
`s`, or failure (`ValueError`) when none matches. -/
def OutputFormat.fromValue (s : String) : Option OutputFormat :=
  if s = "hex" then some .HEX
  else if s = "base64" then some .BASE64
  else if s = "bits" then some .BITS
  else none

/-- Concatenation of the lists produced by `f`; models Python
`"".join(f(x) for x in xs)` at the character-list level. -/
def concatMap (f : α → List β) : List α → List β
  | [] => []
  | a :: as => f a ++ concatMap f as

/-- Lowercase hexadecimal digit for `n < 16`, as produced by Python
`bytes.hex()`. -/
def hexDigit (n : Nat) : Char :=
  if n < 10 then Char.ofNat (48 + n) else Char.ofNat (87 + n)

/-- Two lowercase hex characters for one byte (high nibble first). -/
def byteToHexChars (b : Nat) : List Char :=
  [hexDigit (b / 16), hexDigit (b % 16)]

/-- Embedding of Python `raw_bytes.hex()`. -/
def bytesHex (bs : List Nat) : String :=
  String.mk (concatMap byteToHexChars bs)

/-- Value of a hex character, or `none` when the character is not a
hexadecimal digit. -/
def hexDigitVal (c : Char) : Option Nat :=
  let n := c.toNat
  if 48 ≤ n ∧ n ≤ 57 then some (n - 48)
  else if 97 ≤ n ∧ n ≤ 102 then some (n - 97 + 10)
  else if 65 ≤ n ∧ n ≤ 70 then some (n - 65 + 10)
  else none

/-- Hex decoding at the character-list level: consumes two characters per
byte, failing on a stray character or a non-digit. -/
def hexDecodeList : List Char → Option (List Nat)
  | [] => some []
  | [_] => none
  | c1 :: c2 :: rest =>
    match hexDigitVal c1, hexDigitVal c2, hexDecodeList rest with
    | some h, some l, some bs => some ((h * 16 + l) :: bs)
    | _, _, _ => none

/-- Hex decoding of a string (Python `bytes.fromhex`, no whitespace). -/
def hexDecode (s : String) : Option (List Nat) :=
  hexDecodeList s.data

/-- Fuel-indexed helper for `natBinDigits`; the fuel only bounds the
recursion depth (one unit per halving) and `n + 1` units always suffice. -/
def natBinDigitsGo : Nat → Nat → List Char
  | 0, _ => []
  | fuel + 1, n =>
    if n < 2 then [if n = 1 then '1' else '0']
    else natBinDigitsGo fuel (n / 2) ++ [if n % 2 = 1 then '1' else '0']

/-- Binary digits of `n`, most significant first (Python `format(n, 'b')`). -/
def natBinDigits (n : Nat) : List Char :=
  natBinDigitsGo (n + 1) n

/-- Embedding of Python `format(byte, '08b')`: binary digits left-padded
with `'0'` to a minimum width of 8. -/
def byteBits8 (b : Nat) : List Char :=
  let ds := natBinDigits b
  List.replicate (8 - ds.length) '0' ++ ds

/-- Embedding of Python `"".join(format(byte, '08b') for byte in raw_bytes)`. -/
def bytesBits (bs : List Nat) : String :=
  String.mk (concatMap byteBits8 bs)

/-- Character `n` of the standard base64 alphabet, for `n < 64`. -/
def b64Char (n : Nat) : Char :=
  if n < 26 then Char.ofNat (65 + n)
  else if n < 52 then Char.ofNat (97 + (n - 26))
  else if n < 62 then Char.ofNat (48 + (n - 52))
  else if n = 62 then '+'
  else '/'

/-- Index of a character in the standard base64 alphabet. -/
def b64CharVal (c : Char) : Option Nat :=
  let n := c.toNat
  if 65 ≤ n ∧ n ≤ 90 then some (n - 65)
  else if 97 ≤ n ∧ n ≤ 122 then some (n - 97 + 26)
  else if 48 ≤ n ∧ n ≤ 57 then some (n - 48 + 52)
  else if n = 43 then some 62
  else if n = 47 then some 63
  else none

/-- Standard base64 encoding with padding, at the byte/character-list level
(Python `base64.b64encode`, no line wrapping). -/
def b64encodeList : List Nat → List Char
  | [] => []
  | [a] =>
    [b64Char (a / 4), b64Char (a % 4 * 16), '=', '=']
  | [a, b] =>
    [b64Char (a / 4), b64Char (a % 4 * 16 + b / 16), b64Char (b % 16 * 4), '=']
  | a :: b :: c :: rest =>
    b64Char (a / 4) :: b64Char (a % 4 * 16 + b / 16) ::
      b64Char (b % 16 * 4 + c / 64) :: b64Char (c % 64) :: b64encodeList rest

/-- Embedding of Python `base64.b64encode(bs).decode('ascii')`. -/
def b64encodeStr (bs : List Nat) : String :=
  String.mk (b64encodeList bs)

/-- Base64 decoding of well-formed padded input, at the character-list
level.  It agrees with Python `base64.b64decode` on every well-formed
base64 string — in particular on every output of `b64encodeList` — and
fails (as `b64decode` raises `binascii.Error`) on ill-formed input. -/
def b64decodeList : List Char → Option (List Nat)
  | [] => some []
  | c1 :: c2 :: c3 :: c4 :: rest =>
    if c3 = '=' ∧ c4 = '=' ∧ rest = [] then
      match b64CharVal c1, b64CharVal c2 with
      | some v1, some v2 => some [v1 * 4 + v2 / 16]
      | _, _ => none
    else if c4 = '=' ∧ rest = [] then
      match b64CharVal c1, b64CharVal c2, b64CharVal c3 with
      | some v1, some v2, some v3 =>
        some [v1 * 4 + v2 / 16, v2 % 16 * 16 + v3 / 4]
      | _, _, _ => none
    else
      match b64CharVal c1, b64CharVal c2, b64CharVal c3, b64CharVal c4,
          b64decodeList rest with
      | some v1, some v2, some v3, some v4, some bs =>
        some ((v1 * 4 + v2 / 16) :: (v2 % 16 * 16 + v3 / 4) ::
          (v3 % 4 * 64 + v4) :: bs)
      | _, _, _, _, _ => none
  | _ => none

/-- Base64 decoding of a string (Python `base64.b64decode` on well-formed
input). -/
def b64decodeStr (s : String) : Option (List Nat) :=
  b64decodeList s.data

/-- Embedding of `_convert_raw_hash_bytes` (`hasher.py` lines 63–89) on the
enum domain.  The Python run-time `isinstance` guard and the final
unreachable `raise` are not representable once the format argument is typed
as the (exhaustive) enum. -/
def _convert_raw_hash_bytes (raw_bytes : List Nat)
    (output_format_enum : OutputFormat) : String :=
  match output_format_enum with
  | .HEX => bytesHex raw_bytes
  | .BITS => bytesBits raw_bytes
  | .BASE64 => b64encodeStr raw_bytes

/-- Message of `PyObjCNotAvailableError` raised by `_ensure_pyobjc_available`
(`hasher.py` lines 54–61). -/
def pyobjcUnavailableMsg : String :=
  "PyObjC (Foundation, Vision) not found or not properly installed. Please install it, e.g., \x27pip install pyobjc-core pyobjc-framework-Cocoa pyobjc-framework-Vision\x27"

/-- Hardcoded obfuscated private class name (`hasher.py` line 46). -/
def OBFUSCATED_REQUEST_CLASS_NAME : String :=
  "VN6kBnCOr2mZlSV6yV1dLwB"

/-- Message of `InvalidFormatError` for an unrecognized output-format value
(`hasher.py` lines 105–108); `[fmt.value for fmt in OutputFormat]` renders as
the Python list literal of the three member values. -/
def invalidFormatMsg (s : String) : String :=
  "Invalid output_format value: \x27" ++ s ++ "\x27. Must be one of [\x27hex\x27, \x27base64\x27, \x27bits\x27] or an OutputFormat enum member."

/-- Message of `VisionAPIError` when `objc.lookUpClass` fails
(`hasher.py` line 115). -/
def classNotFoundMsg : String :=
  "Required Vision class \x27" ++ OBFUSCATED_REQUEST_CLASS_NAME ++ "\x27 not found."

/-- Message of `ImageProcessingError` when `NSURL.fileURLWithPath_` returns
`None` (`hasher.py` line 121). -/
def urlFailMsg (image_path : String) : String :=
  "Could not create a valid URL for path \x27" ++ image_path ++ "\x27."

/-- Message of `ImageProcessingError` when the request handler fails to
initialize (`hasher.py` line 127). -/
def handlerFailMsg (image_path : String) : String :=
  "Could not initialize image request handler for \x27" ++ image_path ++ "\x27."

/-- Message of `VisionAPIError` when the private request object fails to
initialize (`hasher.py` line 133). -/
def requestInitFailMsg : String :=
  "Failed to init NeuralHash request object (\x27" ++ OBFUSCATED_REQUEST_CLASS_NAME ++ "\x27)."

/-- Message of `VisionAPIError` when either configuration setter is missing
(`hasher.py` lines 139–140). -/
def missingSettersMsg : String :=
  OBFUSCATED_REQUEST_CLASS_NAME ++ " instance missing required setters. API mismatch or PyObjC bridging issue."

/-- Message of `VisionAPIError` when `performRequests_error_` returns a
falsy flag (`hasher.py` lines 149–150). -/
def performFailMsg (image_path : String) : String :=
  "Vision request failed for \x27" ++ image_path ++ "\x27 (performRequests returned False without raising an exception)."

/-- Message of `VisionAPIError` when the result list is empty
(`hasher.py` line 156). -/
def noResultsMsg (image_path : String) : String :=
  "No results returned from Vision request for \x27" ++ image_path ++ "\x27."

/-- Message of `VisionAPIError` when the hash object lacks the encoding
method (`hasher.py` lines 177–178). -/
def encodeMissingMsg (image_path clsName : String) : String :=
  "Hash object for \x27" ++ image_path ++ "\x27 (class: " ++ clsName ++ ") does not support the required encoding method."

/-- Message of `VisionAPIError` when the encoding method returns `None`
(`hasher.py` lines 184–185). -/
def encodeNoneMsg (image_path : String) : String :=
  "Encoding hash descriptor for \x27" ++ image_path ++ "\x27 failed (encodeHashDescriptor... returned None)."

/-- Message of the generic `NeuralHashError` for an empty base64 string in a
non-base64 format request (`hasher.py` line 195). -/
def emptyB64Msg (image_path : String) : String :=
  "Obtained empty base64 hash string for \x27" ++ image_path ++ "\x27. Cannot derive HEX or BITS."

/-- Message of the generic `NeuralHashError` on a base64 decoding failure
(`hasher.py` line 204).  The trailing `: {exc}` rendering of the Python
exception object is abstracted away. -/
def b64DecodeFailMsg (b64s image_path : String) : String :=
  "Failed to decode base64 hash string (\x27" ++ b64s ++ "\x27) for \x27" ++ image_path ++ "\x27:"

/-- Message of the generic `NeuralHashError` raised when the loop over
observations finishes without producing a hash (`hasher.py` line 211). -/
def couldNotExtractMsg (image_path : String) : String :=
  "Could not extract NeuralHash from any observation for \x27" ++ image_path ++ "\x27."

/-- Message of the generic `NeuralHashError` wrapping an unexpected Python
exception (`hasher.py` line 226); the `{type}` / `{exc}` rendering of the
wrapped exception is abstracted away. -/
def pyErrorWrapMsg (image_path : String) : String :=
  "A Python error occurred while processing \x27" ++ image_path ++ "\x27:"

/-- Model of the hash object returned by `observation.imageSignatureHash()`:
whether it exposes `encodeHashDescriptorWithBase64EncodingAndReturnError_`,
its class name (for the error message), and the byte content of the `NSData`
returned by the encoding method (`none` models a `None` return). -/
structure HashObjModel where
  hasEncodeMethod : Bool
  className : String
  encodeResult : Option (List Nat)
deriving DecidableEq, Repr

/-- Model of an observation in the result list: whether it exposes
`imageSignatureHash`, and what that accessor returns (`none` models a `None`
return). -/
structure ObservationModel where
  hasImageSignatureHash : Bool
  signatureHash : Option HashObjModel
deriving DecidableEq, Repr

/-- Environment describing how each native PyObjC / Vision call answers in
one invocation of `calculate_neural_hash`. -/
structure HasherEnv where
  pyobjcAvailable : Bool
  classFound : Bool
  urlOk : Bool
  handlerOk : Bool
  requestInitOk : Bool
  hasPrintTypeSetter : Bool
  hasHashTypeSetter : Bool
  performSuccess : Bool
  results : List ObservationModel
deriving DecidableEq, Repr

/-- Native-pipeline operations performed during a call, recorded in order. -/
inductive Effect where
  | classLookup
  | urlConstruction
  | handlerConstruction
  | requestInit
  | setPrintType : Nat → Effect
  | setHashType : Nat → Effect
  | performRequests
  | convertRawBytes
deriving DecidableEq, Repr

/-- Embedding of Python `bytes.decode('ascii')`: succeeds exactly when every
byte is below 128, otherwise a `UnicodeDecodeError` is raised. -/
def asciiDecode (bytes : List Nat) : Option String :=
  if bytes.all (fun b => b < 128) then some (String.mk (bytes.map Char.ofNat))
  else none

/-- Embedding of Python `str.lower()` on the relevant (ASCII) domain:
lowercase each character. -/
def pyLower (s : String) : String :=
  String.mk (s.data.map Char.toLower)

/-- Embedding of the output-format normalization of `calculate_neural_hash`
(`hasher.py` lines 98–108): an enum member is taken as-is; any other value is
converted to a string, lowercased and looked up among the enum values, an
unrecognized value raising `InvalidFormatError`. -/
def parseOutputFormat : OutputFormat ⊕ String → Except NHError OutputFormat
  | .inl f => .ok f
  | .inr s =>
    match OutputFormat.fromValue (pyLower s) with
    | some f => .ok f
    | none => .error (.invalidFormatError (invalidFormatMsg s))

/-- Embedding of the `for observation in results:` loop of
`calculate_neural_hash` (`hasher.py` lines 160–213), returning the result or
raised error together with the format-converter invocations it performs.
Falling off the end of the list raises the generic `NeuralHashError`
mentioning that no observation yielded a hash. -/
def processObservations (image_path : String) (fmt : OutputFormat) :
    List ObservationModel → Except NHError String × List Effect
  | [] =>
    (.error (.neuralHashError (couldNotExtractMsg image_path)), [])
  | obs :: rest =>
    if obs.hasImageSignatureHash = false then
      processObservations image_path fmt rest
    else
      match obs.signatureHash with
      | none => processObservations image_path fmt rest
      | some h =>
        if h.hasEncodeMethod = false then
          (.error (.visionAPIError (encodeMissingMsg image_path h.className)), [])
        else
          match h.encodeResult with
          | none => (.error (.visionAPIError (encodeNoneMsg image_path)), [])
          | some bytes =>
            match asciiDecode bytes with
            | none =>
              (.error (.neuralHashError (pyErrorWrapMsg image_path)), [])
            | some b64_hash_string =>
              if b64_hash_string = "" ∧ fmt ≠ OutputFormat.BASE64 then
                (.error (.neuralHashError (emptyB64Msg image_path)), [])
              else if fmt = OutputFormat.BASE64 then
                (.ok b64_hash_string, [])
              else
                match b64decodeStr b64_hash_string with
                | none =>
                  (.error (.neuralHashError
                    (b64DecodeFailMsg b64_hash_string image_path)), [])
                | some raw_hash_bytes =>
                  (.ok (_convert_raw_hash_bytes raw_hash_bytes fmt),
                    [.convertRawBytes])

/-- Effects performed by the pipeline up to and including request execution
when every step succeeds (`hasher.py` lines 112–154). -/
def fullPipelineTrace : List Effect :=
  [.classLookup, .urlConstruction, .handlerConstruction, .requestInit,
    .setPrintType 3, .setHashType 1, .performRequests]

/-- Embedding of the body of `calculate_neural_hash` after format
normalization (`hasher.py` lines 110–213): class lookup, URL and handler
construction, request instantiation, setter probing, the two fixed
configuration values, request execution, and the observation loop, each
failure raising the error the source raises at that point. -/
def runPipeline (env : HasherEnv) (image_path : String) (fmt : OutputFormat) :
    Except NHError String × List Effect :=
  if env.classFound = false then
    (.error (.visionAPIError classNotFoundMsg), [.classLookup])
  else if env.urlOk = false then
    (.error (.imageProcessingError (urlFailMsg image_path)),
      [.classLookup, .urlConstruction])
  else if env.handlerOk = false then
    (.error (.imageProcessingError (handlerFailMsg image_path)),
      [.classLookup, .urlConstruction, .handlerConstruction])
  else if env.requestInitOk = false then
    (.error (.visionAPIError requestInitFailMsg),
      [.classLookup, .urlConstruction, .handlerConstruction, .requestInit])
  else if env.hasPrintTypeSetter = false ∨ env.hasHashTypeSetter = false then
    (.error (.visionAPIError missingSettersMsg),
      [.classLookup, .urlConstruction, .handlerConstruction, .requestInit])
  else if env.performSuccess = false then
    (.error (.visionAPIError (performFailMsg image_path)), fullPipelineTrace)
  else if env.results.isEmpty then
    (.error (.visionAPIError (noResultsMsg image_path)), fullPipelineTrace)
  else
    let r := processObservations image_path fmt env.results
    (r.1, fullPipelineTrace ++ r.2)

/-- Embedding of `calculate_neural_hash` (`hasher.py` lines 92–229): the
availability probe runs first, then output-format normalization, then the
native pipeline. -/
def calculate_neural_hash (env : HasherEnv) (image_path : String)
    (output_format : OutputFormat ⊕ String) :
    Except NHError String × List Effect :=
  if env.pyobjcAvailable = false then
    (.error (.pyObjCNotAvailableError pyobjcUnavailableMsg), [])
  else
    match parseOutputFormat output_format with
    | .error e => (.error e, [])
    | .ok fmt => runPipeline env image_path fmt

/-- One image path handed to the CLI: whether it exists on disk, whether it
is a regular file, and the outcome of `calculate_neural_hash` on it. -/
structure PathCase where
  pathExists : Bool
  isFile : Bool
  hashResult : Except NHError String
deriving Repr

/-- Embedding of the per-path loop of `cli.py` `main` (lines 97–135),
threading `any_successful_processing` and `exit_code`; a
`PyObjCNotAvailableError` from the hasher breaks out of the loop. -/
def mainLoop : List PathCase → Bool → Nat → Bool × Nat
  | [], anySucc, code => (anySucc, code)
  | p :: rest, anySucc, code =>
    if p.pathExists = false then mainLoop rest anySucc 1
    else if p.isFile = false then mainLoop rest anySucc 1
    else
      match p.hashResult with
      | .ok _ => mainLoop rest true code
      | .error e =>
        if e.cls = NHClass.PyObjCNotAvailableErrorC then (anySucc, 1)
        else mainLoop rest anySucc 1

/-- Embedding of the exit-code behaviour of the `main` function of `cli.py`
(lines 86–143): early exit 1 when PyObjC is unavailable; otherwise the loop
runs and, when no path succeeded and the path list is non-empty, the exit
code is forced non-zero.  (Lean reserves the root name `main`, hence the
prefix.) -/
def cli_main (pyobjcAvailable : Bool) (paths : List PathCase) : Nat :=
  if pyobjcAvailable = false then 1
  else
    let r := mainLoop paths false 0
    if r.1 = false ∧ paths.isEmpty = false then max 1 r.2
    else r.2

/-- Lowercase hexadecimal alphabet. -/
def lowercaseHexChars : List Char :=
  ("0123456789abcdef").data

/-- Character rendering one bit (`'1'` for a set bit, `'0'` otherwise). -/
def bitChar (n : Nat) : Char :=
  if n = 1 then '1' else '0'

/-- Spec-side rendering of one byte as bits, written from the spec text
(each byte as exactly 8 binary digits, most-significant bit first), to be
compared against the source-derived `byteBits8`. -/
def specBitsByte (b : Nat) : List Char :=
  [bitChar (b / 128 % 2), bitChar (b / 64 % 2), bitChar (b / 32 % 2),
   bitChar (b / 16 % 2), bitChar (b / 8 % 2), bitChar (b / 4 % 2),
   bitChar (b / 2 % 2), bitChar (b % 2)]

theorem hexDigitVal_hexDigit : ∀ n < 16, hexDigitVal (hexDigit n) = some n := by
  decide

theorem hexDigit_lower : ∀ n < 16, hexDigit n ∈ lowercaseHexChars := by
  decide

theorem b64CharVal_b64Char : ∀ n < 64, b64CharVal (b64Char n) = some n := by
  decide

theorem b64Char_ne_pad : ∀ n < 64, b64Char n ≠ '=' := by
  decide

set_option maxRecDepth 4000 in
theorem byteBits8_spec : ∀ b < 256, byteBits8 b = specBitsByte b := by
  decide

theorem concatMap_length (f : α → List β) (k : Nat) :
    ∀ l : List α, (∀ a ∈ l, (f a).length = k) →
      (concatMap f l).length = k * l.length := by
  intro l
  induction l with
  | nil => intro _; simp [concatMap]
  | cons a as ih =>
    intro h
    have ha := h a (List.mem_cons_self a as)
    have has := ih (fun x hx => h x (List.mem_cons_of_mem a hx))
    simp [concatMap, List.length_append, ha, has, Nat.mul_succ]
    omega

theorem concatMap_mem (f : α → List β) {c : β} :
    ∀ l : List α, c ∈ concatMap f l → ∃ a ∈ l, c ∈ f a := by
  intro l
  induction l with
  | nil => intro h; simp [concatMap] at h
  | cons a as ih =>
    intro h
    rw [concatMap, List.mem_append] at h
    rcases h with h | h
    · exact ⟨a, List.mem_cons_self a as, h⟩
    · obtain ⟨x, hx, hcx⟩ := ih h
      exact ⟨x, List.mem_cons_of_mem a hx, hcx⟩

theorem concatMap_congr {f g : α → List β} :
    ∀ l : List α, (∀ a ∈ l, f a = g a) → concatMap f l = concatMap g l := by
  intro l
  induction l with
  | nil => intro _; rfl
  | cons a as ih =>
    intro h
    rw [concatMap, concatMap, h a (List.mem_cons_self a as),
      ih (fun x hx => h x (List.mem_cons_of_mem a hx))]

theorem hexDecodeList_concat :
    ∀ bs : List Nat, (∀ b ∈ bs, b < 256) →
      hexDecodeList (concatMap byteToHexChars bs) = some bs := by
  intro bs
  induction bs with
  | nil => intro _; rfl
  | cons a as ih =>
    intro h
    have ha : a < 256 := h a (List.mem_cons_self a as)
    have h1 : a / 16 < 16 := by omega
    have h2 : a % 16 < 16 := by omega
    have ih2 := ih (fun b hb => h b (List.mem_cons_of_mem a hb))
    have hval : a / 16 * 16 + a % 16 = a := by omega
    simp [concatMap, byteToHexChars, hexDecodeList,
      hexDigitVal_hexDigit _ h1, hexDigitVal_hexDigit _ h2, ih2, hval]

theorem b64decodeList_encodeList :
    ∀ (n : Nat) (bs : List Nat), bs.length ≤ n → (∀ b ∈ bs, b < 256) →
      b64decodeList (b64encodeList bs) = some bs := by
  intro n
  induction n with
  | zero =>
    intro bs hl _
    cases bs with
    | nil => rfl
    | cons a as => simp at hl
  | succ n ih =>
    intro bs hl hb
    match bs with
    | [] => rfl
    | [a] =>
      have ha : a < 256 := hb a (by simp)
      have h1 : a / 4 < 64 := by omega
      have h2 : a % 4 * 16 < 64 := by omega
      have hv : a / 4 * 4 + a % 4 * 16 / 16 = a := by omega
      simp [b64encodeList, b64decodeList,
        b64CharVal_b64Char _ h1, b64CharVal_b64Char _ h2, hv]
      omega
    | [a, b] =>
      have ha : a < 256 := hb a (by simp)
      have hbb : b < 256 := hb b (by simp)
      have h1 : a / 4 < 64 := by omega
      have h2 : a % 4 * 16 + b / 16 < 64 := by omega
      have h3 : b % 16 * 4 < 64 := by omega
      have hne3 := b64Char_ne_pad _ h3
      have hv1 : a / 4 * 4 + (a % 4 * 16 + b / 16) / 16 = a := by omega
      have hv2 : (a % 4 * 16 + b / 16) % 16 * 16 + b % 16 * 4 / 4 = b := by
        omega
      simp [b64encodeList, b64decodeList, hne3,
        b64CharVal_b64Char _ h1, b64CharVal_b64Char _ h2,
        b64CharVal_b64Char _ h3, hv1, hv2]
      omega
    | a :: b :: c :: rest =>
      have ha : a < 256 := hb a (by simp)
      have hbb : b < 256 := hb b (by simp)
      have hc : c < 256 := hb c (by simp)
      have h1 : a / 4 < 64 := by omega
      have h2 : a % 4 * 16 + b / 16 < 64 := by omega
      have h3 : b % 16 * 4 + c / 64 < 64 := by omega
      have h4 : c % 64 < 64 := by omega
      have hne3 := b64Char_ne_pad _ h3
      have hne4 := b64Char_ne_pad _ h4
      have hrest : rest.length ≤ n := by
        simp [List.length_cons] at hl
        omega
      have ihr := ih rest hrest
        (fun x hx => hb x (by simp [hx]))
      have hv1 : a / 4 * 4 + (a % 4 * 16 + b / 16) / 16 = a := by omega
      have hv2 :
          (a % 4 * 16 + b / 16) % 16 * 16 + (b % 16 * 4 + c / 64) / 4 = b := by
        omega
      have hv3 : (b % 16 * 4 + c / 64) % 4 * 64 + c % 64 = c := by omega
      simp [b64encodeList, b64decodeList, hne3, hne4,
        b64CharVal_b64Char _ h1, b64CharVal_b64Char _ h2,
        b64CharVal_b64Char _ h3, b64CharVal_b64Char _ h4, ihr, hv1, hv2, hv3]

/-- Pipeline preconditions: every native step up to request execution
answers successfully. -/
def pipelineOk (env : HasherEnv) : Prop :=
  env.pyobjcAvailable = true ∧ env.classFound = true ∧ env.urlOk = true ∧
  env.handlerOk = true ∧ env.requestInitOk = true ∧
  env.hasPrintTypeSetter = true ∧ env.hasHashTypeSetter = true ∧
  env.performSuccess = true

/-- An observation the loop skips with a warning: it lacks the
`imageSignatureHash` accessor, or that accessor returns `None`. -/
def skippableObs (o : ObservationModel) : Prop :=
  o.hasImageSignatureHash = false ∨ o.signatureHash = none

/-- An observation from which the loop derives the ASCII-decoded base64
string `s`. -/
def yieldsDecoded (o : ObservationModel) (s : String) : Prop :=
  o.hasImageSignatureHash = true ∧
  ∃ h bytes, o.signatureHash = some h ∧ h.hasEncodeMethod = true ∧
    h.encodeResult = some bytes ∧ asciiDecode bytes = some s

theorem processObservations_skip (path : String) (fmt : OutputFormat) :
    ∀ skips rest : List ObservationModel, (∀ o ∈ skips, skippableObs o) →
      processObservations path fmt (skips ++ rest)
        = processObservations path fmt rest := by
  intro skips
  induction skips with
  | nil => intro rest _; rfl
  | cons o os ih =>
    intro rest h
    have ho := h o (List.mem_cons_self o os)
    have hos := ih rest (fun x hx => h x (List.mem_cons_of_mem o hx))
    rcases ho with h1 | h2
    · simp [processObservations, h1, hos]
    · cases hh : o.hasImageSignatureHash
      · simp [processObservations, hh, hos]
      · simp [processObservations, hh, h2, hos]

theorem runPipeline_ok (env : HasherEnv) (path : String) (fmt : OutputFormat)
    (h : pipelineOk env) (hne : env.results.isEmpty = false) :
    runPipeline env path fmt
      = ((processObservations path fmt env.results).1,
          fullPipelineTrace ++ (processObservations path fmt env.results).2) := by
  obtain ⟨_, h2, h3, h4, h5, h6, h7, h8⟩ := h
  simp [runPipeline, h2, h3, h4, h5, h6, h7, h8, hne]

theorem calculate_ok (env : HasherEnv) (path : String) (fmt : OutputFormat)
    (h : pipelineOk env) (hne : env.results.isEmpty = false) :
    calculate_neural_hash env path (.inl fmt)
      = ((processObservations path fmt env.results).1,
          fullPipelineTrace ++ (processObservations path fmt env.results).2) := by
  rw [calculate_neural_hash]
  simp [h.1, parseOutputFormat, runPipeline_ok env path fmt h hne]

theorem data_infix_of_eq (pre mid post m : String)
    (h : m.data = pre.data ++ (mid.data ++ post.data)) :
    mid.data <:+: m.data :=
  ⟨pre.data, post.data, by rw [h]; simp [List.append_assoc]⟩

theorem bitChar_cases (n : Nat) : bitChar n = '0' ∨ bitChar n = '1' := by
  unfold bitChar
  split
  · right; rfl
  · left; rfl

/-- C8: for every byte sequence B, the format converter satisfies:
hex-decoding its HEX output yields B, the HEX output is two lowercase hex
characters per byte; the BITS output has length 8 × |B|, consists only of
the characters '0' and '1', and renders each byte most-significant bit
first (it equals the spec-side `specBitsByte` rendering); and
base64-decoding its BASE64 output yields B. -/
theorem convert_raw_hash_bytes_algebra (B : List Nat)
    (hB : ∀ b ∈ B, b < 256) :
    hexDecode (_convert_raw_hash_bytes B OutputFormat.HEX) = some B ∧
    (_convert_raw_hash_bytes B OutputFormat.HEX).length = 2 * B.length ∧
    (∀ c ∈ (_convert_raw_hash_bytes B OutputFormat.HEX).data,
      c ∈ lowercaseHexChars) ∧
    (_convert_raw_hash_bytes B OutputFormat.BITS).length = 8 * B.length ∧
    (∀ c ∈ (_convert_raw_hash_bytes B OutputFormat.BITS).data,
      c = '0' ∨ c = '1') ∧
    (_convert_raw_hash_bytes B OutputFormat.BITS).data
      = concatMap specBitsByte B ∧
    b64decodeStr (_convert_raw_hash_bytes B OutputFormat.BASE64) = some B := by
  have hbits : concatMap byteBits8 B = concatMap specBitsByte B :=
    concatMap_congr B (fun b hb => byteBits8_spec b (hB b hb))
  refine ⟨?_, ?_, ?_, ?_, ?_, ?_, ?_⟩
  · exact hexDecodeList_concat B hB
  · show (concatMap byteToHexChars B).length = 2 * B.length
    exact concatMap_length byteToHexChars 2 B (fun a _ => rfl)
  · intro c hc
    obtain ⟨a, ha, hca⟩ := concatMap_mem byteToHexChars B hc
    have h256 : a < 256 := hB a ha
    have hd : a / 16 < 16 := by omega
    have hm : a % 16 < 16 := by omega
    simp [byteToHexChars] at hca
    rcases hca with hca | hca
    · rw [hca]; exact hexDigit_lower _ hd
    · rw [hca]; exact hexDigit_lower _ hm
  · show (concatMap byteBits8 B).length = 8 * B.length
    rw [hbits]
    exact concatMap_length specBitsByte 8 B (fun a _ => rfl)
  · intro c hc
    have hc2 : c ∈ concatMap specBitsByte B := by
      rw [← hbits]; exact hc
    obtain ⟨a, _, hca⟩ := concatMap_mem specBitsByte B hc2
    simp [specBitsByte] at hca
    rcases hca with h | h | h | h | h | h | h | h <;>
      · rw [h]
        exact bitChar_cases _
  · exact hbits
  · exact b64decodeList_encodeList B.length B le_rfl hB

/-- C8 witness: the algebraic converter properties instantiated at the
concrete byte sequence [77, 0, 255]. -/
theorem convert_raw_hash_bytes_algebra_witness :
    (∀ b ∈ ([77, 0, 255] : List Nat), b < 256) ∧
    hexDecode (_convert_raw_hash_bytes [77, 0, 255] OutputFormat.HEX)
      = some [77, 0, 255] ∧
    b64decodeStr (_convert_raw_hash_bytes [77, 0, 255] OutputFormat.BASE64)
      = some [77, 0, 255] :=
  ⟨by decide,
    (convert_raw_hash_bytes_algebra [77, 0, 255] (by decide)).1,
    (convert_raw_hash_bytes_algebra [77, 0, 255] (by decide)).2.2.2.2.2.2⟩

/-- C9: on the bytes obtained by base64-decoding "QUJDREVGR0hJSktM"
(sixty-five through seventy-six), the converter's HEX output is
"4142434445464748494a4b4c" and its BITS output is the 96-character binary
expansion of those twelve bytes. -/
theorem convert_raw_hash_bytes_hypothetical :
    b64decodeStr ("QUJDREVGR0hJSktM")
      = some [65, 66, 67, 68, 69, 70, 71, 72, 73, 74, 75, 76] ∧
    _convert_raw_hash_bytes [65, 66, 67, 68, 69, 70, 71, 72, 73, 74, 75, 76]
        OutputFormat.HEX = "4142434445464748494a4b4c" ∧
    _convert_raw_hash_bytes [65, 66, 67, 68, 69, 70, 71, 72, 73, 74, 75, 76]
        OutputFormat.BITS
      = "010000010100001001000011010001000100010101000110010001110100100001001001010010100100101101001100" ∧
    (_convert_raw_hash_bytes [65, 66, 67, 68, 69, 70, 71, 72, 73, 74, 75, 76]
        OutputFormat.BITS).length = 96 := by
  decide

/-- C1 counterexample: with class lookup failing and everything else fine,
the raised error is of class `VisionAPIError` — it *is* an instance of the
Vision-API-Failure kind, contradicting the claim that the class-resolution
error is distinct from (not an instance of) Vision-API-Failure. -/
theorem class_lookup_visionAPIError_counterexample :
    (calculate_neural_hash ⟨true, false, true, true, true, true, true, true, []⟩
        ("img.png") (Sum.inl OutputFormat.HEX)).1
      = Except.error (NHError.visionAPIError classNotFoundMsg) ∧
    (NHError.visionAPIError classNotFoundMsg).isInstanceOf
        NHClass.VisionAPIErrorC = true := by
  decide

/-- C1 (amended): when the dynamic lookup of the hardcoded private class
name fails, the raised error is of the `VisionAPIError` class — a
distinguished subclass, never the generic base `NeuralHashError`. -/
theorem class_lookup_failure_error_kind (env : HasherEnv) (path : String)
    (fmt : OutputFormat) (hav : env.pyobjcAvailable = true)
    (hcf : env.classFound = false) :
    (calculate_neural_hash env path (Sum.inl fmt)).1
      = Except.error (NHError.visionAPIError classNotFoundMsg) ∧
    (NHError.visionAPIError classNotFoundMsg).cls ≠ NHClass.NeuralHashErrorC := by
  constructor
  · simp [calculate_neural_hash, hav, parseOutputFormat, runPipeline, hcf]
  · decide

/-- C1 witness: the amended class-lookup-failure property at a concrete
environment. -/
theorem class_lookup_failure_error_kind_witness :
    (⟨true, false, true, true, true, true, true, true, []⟩ : HasherEnv).pyobjcAvailable
        = true ∧
    (⟨true, false, true, true, true, true, true, true, []⟩ : HasherEnv).classFound
        = false ∧
    (calculate_neural_hash ⟨true, false, true, true, true, true, true, true, []⟩
        ("a.png") (Sum.inl OutputFormat.BITS)).1
      = Except.error (NHError.visionAPIError classNotFoundMsg) :=
  ⟨rfl, rfl,
    (class_lookup_failure_error_kind _ ("a.png") OutputFormat.BITS rfl rfl).1⟩

/-- C2 counterexample: with an empty result list the raised error is of
class `VisionAPIError`, not the generic base error kind the claim
requires. -/
theorem empty_results_error_kind_counterexample :
    (calculate_neural_hash ⟨true, true, true, true, true, true, true, true, []⟩
        ("img.png") (Sum.inl OutputFormat.HEX)).1
      = Except.error (NHError.visionAPIError (noResultsMsg ("img.png"))) ∧
    NHError.cls (NHError.visionAPIError (noResultsMsg ("img.png")))
      ≠ NHClass.NeuralHashErrorC := by
  decide

/-- C2 (amended): with the pipeline otherwise succeeding, an empty result
list raises a `VisionAPIError` whose message references "No results", and a
non-empty list in which no observation yields a usable hash raises the
generic `NeuralHashError` whose message references "Could not extract". -/
theorem result_extraction_error_kinds (env : HasherEnv) (path : String)
    (fmt : OutputFormat) (hok : pipelineOk env) :
    (env.results = [] →
      (calculate_neural_hash env path (Sum.inl fmt)).1
        = Except.error (NHError.visionAPIError (noResultsMsg path))) ∧
    (env.results ≠ [] → (∀ o ∈ env.results, skippableObs o) →
      (calculate_neural_hash env path (Sum.inl fmt)).1
        = Except.error (NHError.neuralHashError (couldNotExtractMsg path))) ∧
    ("No results").data <:+: (noResultsMsg path).data ∧
    ("Could not extract").data <:+: (couldNotExtractMsg path).data := by
  obtain ⟨h1, h2, h3, h4, h5, h6, h7, h8⟩ := hok
  refine ⟨?_, ?_, ?_, ?_⟩
  · intro hres
    simp [calculate_neural_hash, h1, parseOutputFormat, runPipeline,
      h2, h3, h4, h5, h6, h7, h8, hres]
  · intro hne hsk
    have hisE : env.results.isEmpty = false := by
      cases hE : env.results
      · exact absurd hE hne
      · rfl
    rw [calculate_ok env path fmt ⟨h1, h2, h3, h4, h5, h6, h7, h8⟩ hisE]
    have h0 := processObservations_skip path fmt env.results [] hsk
    rw [List.append_nil] at h0
    simp [h0, processObservations]
  · apply data_infix_of_eq ("") ("No results")
      (" returned from Vision request for \x27" ++ path ++ "\x27.")
    have hsplit : ("No results returned from Vision request for \x27" : String).data
        = ("No results" : String).data
          ++ (" returned from Vision request for \x27" : String).data := by
      decide
    simp [noResultsMsg, String.data_append, hsplit, List.append_assoc]
  · apply data_infix_of_eq ("") ("Could not extract")
      (" NeuralHash from any observation for \x27" ++ path ++ "\x27.")
    have hsplit :
        ("Could not extract NeuralHash from any observation for \x27" : String).data
          = ("Could not extract" : String).data
            ++ (" NeuralHash from any observation for \x27" : String).data := by
      decide
    simp [couldNotExtractMsg, String.data_append, hsplit, List.append_assoc]

/-- C2 witness: the amended result-extraction property at concrete
environments, one with an empty result list and one whose single
observation is skippable. -/
theorem result_extraction_error_kinds_witness :
    pipelineOk ⟨true, true, true, true, true, true, true, true, []⟩ ∧
    (calculate_neural_hash ⟨true, true, true, true, true, true, true, true, []⟩
        ("img.png") (Sum.inl OutputFormat.HEX)).1
      = Except.error (NHError.visionAPIError (noResultsMsg ("img.png"))) ∧
    (calculate_neural_hash
        ⟨true, true, true, true, true, true, true, true, [⟨false, none⟩]⟩
        ("img.png") (Sum.inl OutputFormat.HEX)).1
      = Except.error (NHError.neuralHashError (couldNotExtractMsg ("img.png"))) :=
  ⟨⟨rfl, rfl, rfl, rfl, rfl, rfl, rfl, rfl⟩,
    (result_extraction_error_kinds _ ("img.png") OutputFormat.HEX
      ⟨rfl, rfl, rfl, rfl, rfl, rfl, rfl, rfl⟩).1 rfl,
    (result_extraction_error_kinds
        ⟨true, true, true, true, true, true, true, true, [⟨false, none⟩]⟩
        ("img.png") OutputFormat.HEX
      ⟨rfl, rfl, rfl, rfl, rfl, rfl, rfl, rfl⟩).2.1 (by simp)
      (by intro o ho; simp at ho; rw [ho]; left; rfl)⟩

/-- C5: with PyObjC available, an output-format value that is not an enum
member and whose lowercased string form is not a recognized value raises
`InvalidFormatError` with a message listing the three permitted values, and
no native-pipeline operation is performed (the effect trace is empty). -/
theorem invalid_format_rejected (env : HasherEnv) (path s : String)
    (hav : env.pyobjcAvailable = true)
    (hbad : OutputFormat.fromValue (pyLower s) = none) :
    calculate_neural_hash env path (Sum.inr s)
      = (Except.error (NHError.invalidFormatError (invalidFormatMsg s)), []) ∧
    ("hex").data <:+: (invalidFormatMsg s).data ∧
    ("base64").data <:+: (invalidFormatMsg s).data ∧
    ("bits").data <:+: (invalidFormatMsg s).data := by
  refine ⟨?_, ?_, ?_, ?_⟩
  · simp [calculate_neural_hash, hav, parseOutputFormat, hbad]
  · apply data_infix_of_eq
      ("Invalid output_format value: \x27" ++ s ++ "\x27. Must be one of [\x27")
      ("hex")
      ("\x27, \x27base64\x27, \x27bits\x27] or an OutputFormat enum member.")
    have hsplit :
        ("\x27. Must be one of [\x27hex\x27, \x27base64\x27, \x27bits\x27] or an OutputFormat enum member." : String).data
          = ("\x27. Must be one of [\x27" : String).data
            ++ (("hex" : String).data
              ++ ("\x27, \x27base64\x27, \x27bits\x27] or an OutputFormat enum member." : String).data) := by
      decide
    simp [invalidFormatMsg, String.data_append, hsplit, List.append_assoc]
  · apply data_infix_of_eq
      ("Invalid output_format value: \x27" ++ s ++ "\x27. Must be one of [\x27hex\x27, \x27")
      ("base64")
      ("\x27, \x27bits\x27] or an OutputFormat enum member.")
    have hsplit :
        ("\x27. Must be one of [\x27hex\x27, \x27base64\x27, \x27bits\x27] or an OutputFormat enum member." : String).data
          = ("\x27. Must be one of [\x27hex\x27, \x27" : String).data
            ++ (("base64" : String).data
              ++ ("\x27, \x27bits\x27] or an OutputFormat enum member." : String).data) := by
      decide
    simp [invalidFormatMsg, String.data_append, hsplit, List.append_assoc]
  · apply data_infix_of_eq
      ("Invalid output_format value: \x27" ++ s
        ++ "\x27. Must be one of [\x27hex\x27, \x27base64\x27, \x27")
      ("bits")
      ("\x27] or an OutputFormat enum member.")
    have hsplit :
        ("\x27. Must be one of [\x27hex\x27, \x27base64\x27, \x27bits\x27] or an OutputFormat enum member." : String).data
          = ("\x27. Must be one of [\x27hex\x27, \x27base64\x27, \x27" : String).data
            ++ (("bits" : String).data
              ++ ("\x27] or an OutputFormat enum member." : String).data) := by
      decide
    simp [invalidFormatMsg, String.data_append, hsplit, List.append_assoc]

/-- C5 witness: the invalid-format property at a concrete environment and
the unrecognized format string "zzz". -/
theorem invalid_format_rejected_witness :
    (⟨true, true, true, true, true, true, true, true, []⟩ : HasherEnv).pyobjcAvailable
        = true ∧
    OutputFormat.fromValue (pyLower ("zzz")) = none ∧
    calculate_neural_hash ⟨true, true, true, true, true, true, true, true, []⟩
        ("p.png") (Sum.inr ("zzz"))
      = (Except.error (NHError.invalidFormatError (invalidFormatMsg ("zzz"))), []) :=
  ⟨rfl, by decide,
    (invalid_format_rejected _ ("p.png") ("zzz") rfl (by decide)).1⟩

/-- C6: while the availability probe reports PyObjC unavailable, every call
fails with `PyObjCNotAvailableError` and performs no native operation at
all — in particular no class lookup. -/
theorem unavailable_fails_before_class_lookup (env : HasherEnv) (path : String)
    (fmtArg : OutputFormat ⊕ String) (hun : env.pyobjcAvailable = false) :
    calculate_neural_hash env path fmtArg
      = (Except.error (NHError.pyObjCNotAvailableError pyobjcUnavailableMsg), []) ∧
    Effect.classLookup ∉ (calculate_neural_hash env path fmtArg).2 := by
  have h : calculate_neural_hash env path fmtArg
      = (Except.error (NHError.pyObjCNotAvailableError pyobjcUnavailableMsg), []) := by
    simp [calculate_neural_hash, hun]
  refine ⟨h, ?_⟩
  rw [h]
  simp

/-- C6 witness: the unavailability property at a concrete environment. -/
theorem unavailable_fails_before_class_lookup_witness :
    (⟨false, true, true, true, true, true, true, true, []⟩ : HasherEnv).pyobjcAvailable
        = false ∧
    calculate_neural_hash ⟨false, true, true, true, true, true, true, true, []⟩
        ("p.png") (Sum.inl OutputFormat.HEX)
      = (Except.error (NHError.pyObjCNotAvailableError pyobjcUnavailableMsg), []) :=
  ⟨rfl,
    (unavailable_fails_before_class_lookup _ ("p.png")
      (Sum.inl OutputFormat.HEX) rfl).1⟩

/-- C7: when the instantiated private request object lacks either expected
configuration setter, a `VisionAPIError` is raised and the effect trace
contains no property-setting operation (in particular not the fixed values
3 and 1) and no request execution. -/
theorem missing_setters_error_before_configuration (env : HasherEnv)
    (path : String) (fmt : OutputFormat)
    (hav : env.pyobjcAvailable = true) (hcf : env.classFound = true)
    (hurl : env.urlOk = true) (hhand : env.handlerOk = true)
    (hreq : env.requestInitOk = true)
    (hms : env.hasPrintTypeSetter = false ∨ env.hasHashTypeSetter = false) :
    (calculate_neural_hash env path (Sum.inl fmt)).1
      = Except.error (NHError.visionAPIError missingSettersMsg) ∧
    (∀ v, Effect.setPrintType v ∉ (calculate_neural_hash env path (Sum.inl fmt)).2
      ∧ Effect.setHashType v ∉ (calculate_neural_hash env path (Sum.inl fmt)).2) ∧
    Effect.performRequests ∉ (calculate_neural_hash env path (Sum.inl fmt)).2 := by
  have h : calculate_neural_hash env path (Sum.inl fmt)
      = (Except.error (NHError.visionAPIError missingSettersMsg),
          [Effect.classLookup, Effect.urlConstruction,
            Effect.handlerConstruction, Effect.requestInit]) := by
    rcases hms with hm | hm <;>
      simp [calculate_neural_hash, hav, parseOutputFormat, runPipeline,
        hcf, hurl, hhand, hreq, hm]
  refine ⟨by rw [h], fun v => ⟨?_, ?_⟩, ?_⟩ <;> rw [h] <;> simp

/-- C7 witness: the missing-setter property at a concrete environment whose
request object lacks the hash-type setter. -/
theorem missing_setters_error_before_configuration_witness :
    (⟨true, true, true, true, true, true, false, true, []⟩ : HasherEnv).hasPrintTypeSetter
        = false ∨
      (⟨true, true, true, true, true, true, false, true, []⟩ : HasherEnv).hasHashTypeSetter
        = false ∧
    (calculate_neural_hash ⟨true, true, true, true, true, true, false, true, []⟩
        ("p.png") (Sum.inl OutputFormat.HEX)).1
      = Except.error (NHError.visionAPIError missingSettersMsg) :=
  Or.inr ⟨rfl,
    (missing_setters_error_before_configuration _ ("p.png") OutputFormat.HEX
      rfl rfl rfl rfl rfl (Or.inr rfl)).1⟩

/-- C10: the availability check strictly precedes output-format validation
(with PyObjC unavailable even an invalid format string yields
`PyObjCNotAvailableError`, never `InvalidFormatError`), and format-string
normalization is case-insensitive: any string whose lowercased form is
"hex", "base64" or "bits" is accepted as the corresponding enum member. -/
theorem availability_precedes_format_validation :
    (∀ (env : HasherEnv) (path s : String), env.pyobjcAvailable = false →
      OutputFormat.fromValue (pyLower s) = none →
      (calculate_neural_hash env path (Sum.inr s)).1
        = Except.error (NHError.pyObjCNotAvailableError pyobjcUnavailableMsg) ∧
      ∀ m, (calculate_neural_hash env path (Sum.inr s)).1
        ≠ Except.error (NHError.invalidFormatError m)) ∧
    (∀ s : String,
      (pyLower s = "hex" →
        parseOutputFormat (Sum.inr s) = Except.ok OutputFormat.HEX) ∧
      (pyLower s = "base64" →
        parseOutputFormat (Sum.inr s) = Except.ok OutputFormat.BASE64) ∧
      (pyLower s = "bits" →
        parseOutputFormat (Sum.inr s) = Except.ok OutputFormat.BITS)) := by
  constructor
  · intro env path s hun _hbad
    constructor
    · simp [calculate_neural_hash, hun]
    · intro m
      simp [calculate_neural_hash, hun]
  · intro s
    refine ⟨?_, ?_, ?_⟩ <;> intro h <;>
      simp [parseOutputFormat, OutputFormat.fromValue, h]

/-- C10 witness: unavailable PyObjC beats the invalid format string "zzz",
and the uppercase strings are accepted case-insensitively. -/
theorem availability_precedes_format_validation_witness :
    OutputFormat.fromValue (pyLower ("zzz")) = none ∧
    (calculate_neural_hash ⟨false, true, true, true, true, true, true, true, []⟩
        ("p.png") (Sum.inr ("zzz"))).1
      = Except.error (NHError.pyObjCNotAvailableError pyobjcUnavailableMsg) ∧
    parseOutputFormat (Sum.inr ("HEX")) = Except.ok OutputFormat.HEX ∧
    parseOutputFormat (Sum.inr ("Base64")) = Except.ok OutputFormat.BASE64 :=
  ⟨by decide,
    (availability_precedes_format_validation.1 _ ("p.png") ("zzz") rfl
      (by decide)).1,
    (availability_precedes_format_validation.2 ("HEX")).1 (by decide),
    (availability_precedes_format_validation.2 ("Base64")).2.1 (by decide)⟩

/-- C4: once the loop reaches an observation that yields the ASCII-decoded
string `s` (after zero or more skippable observations), requesting BASE64
returns `s` unmodified — even when `s` is empty — without ever invoking the
byte-format converter, whereas requesting HEX or BITS with `s` empty raises
the generic `NeuralHashError`. -/
theorem base64_returned_unmodified (env : HasherEnv) (path : String)
    (skips rest : List ObservationModel) (obs : ObservationModel) (s : String)
    (hok : pipelineOk env) (hres : env.results = skips ++ obs :: rest)
    (hsk : ∀ o ∈ skips, skippableObs o) (hy : yieldsDecoded obs s) :
    (calculate_neural_hash env path (Sum.inl OutputFormat.BASE64)).1
      = Except.ok s ∧
    Effect.convertRawBytes
      ∉ (calculate_neural_hash env path (Sum.inl OutputFormat.BASE64)).2 ∧
    (s = "" →
      (calculate_neural_hash env path (Sum.inl OutputFormat.HEX)).1
        = Except.error (NHError.neuralHashError (emptyB64Msg path)) ∧
      (calculate_neural_hash env path (Sum.inl OutputFormat.BITS)).1
        = Except.error (NHError.neuralHashError (emptyB64Msg path))) := by
  obtain ⟨hsig, h, bytes, hsh, henc, hencr, hdec⟩ := hy
  have hisE : env.results.isEmpty = false := by
    rw [hres]; cases skips <;> rfl
  have key : ∀ fmt, processObservations path fmt env.results
      = processObservations path fmt (obs :: rest) := by
    intro fmt
    rw [hres]
    exact processObservations_skip path fmt skips (obs :: rest) hsk
  have hb64 : processObservations path OutputFormat.BASE64 (obs :: rest)
      = (Except.ok s, []) := by
    simp [processObservations, hsig, hsh, henc, hencr, hdec]
  have hcalc := calculate_ok env path OutputFormat.BASE64 hok hisE
  rw [key, hb64] at hcalc
  refine ⟨by rw [hcalc], by rw [hcalc]; simp [fullPipelineTrace], ?_⟩
  intro hs
  constructor
  · have hhex : processObservations path OutputFormat.HEX (obs :: rest)
        = (Except.error (NHError.neuralHashError (emptyB64Msg path)), []) := by
      simp [processObservations, hsig, hsh, henc, hencr, hdec, hs]
    have hcalc2 := calculate_ok env path OutputFormat.HEX hok hisE
    rw [key, hhex] at hcalc2
    rw [hcalc2]
  · have hbits : processObservations path OutputFormat.BITS (obs :: rest)
        = (Except.error (NHError.neuralHashError (emptyB64Msg path)), []) := by
      simp [processObservations, hsig, hsh, henc, hencr, hdec, hs]
    have hcalc2 := calculate_ok env path OutputFormat.BITS hok hisE
    rw [key, hbits] at hcalc2
    rw [hcalc2]

/-- C4 witness: the base64-unmodified property at a concrete environment
whose single observation decodes to the one-character string "Q", and at
one decoding to the empty string. -/
theorem base64_returned_unmodified_witness :
    yieldsDecoded ⟨true, some ⟨true, "X", some [81]⟩⟩ ("Q") ∧
    (calculate_neural_hash
        ⟨true, true, true, true, true, true, true, true,
          [⟨true, some ⟨true, "X", some [81]⟩⟩]⟩
        ("p.png") (Sum.inl OutputFormat.BASE64)).1
      = Except.ok ("Q") ∧
    (calculate_neural_hash
        ⟨true, true, true, true, true, true, true, true,
          [⟨true, some ⟨true, "X", some []⟩⟩]⟩
        ("p.png") (Sum.inl OutputFormat.BASE64)).1
      = Except.ok ("") ∧
    (calculate_neural_hash
        ⟨true, true, true, true, true, true, true, true,
          [⟨true, some ⟨true, "X", some []⟩⟩]⟩
        ("p.png") (Sum.inl OutputFormat.HEX)).1
      = Except.error (NHError.neuralHashError (emptyB64Msg ("p.png"))) :=
  ⟨⟨rfl, ⟨true, "X", some [81]⟩, [81], rfl, rfl, rfl, by decide⟩,
    (base64_returned_unmodified _ ("p.png") [] [] _ ("Q")
      ⟨rfl, rfl, rfl, rfl, rfl, rfl, rfl, rfl⟩ rfl (by simp)
      ⟨rfl, ⟨true, "X", some [81]⟩, [81], rfl, rfl, rfl, by decide⟩).1,
    (base64_returned_unmodified _ ("p.png") [] [] _ ("")
      ⟨rfl, rfl, rfl, rfl, rfl, rfl, rfl, rfl⟩ rfl (by simp)
      ⟨rfl, ⟨true, "X", some []⟩, [], rfl, rfl, rfl, by decide⟩).1,
    ((base64_returned_unmodified _ ("p.png") [] [] _ ("")
      ⟨rfl, rfl, rfl, rfl, rfl, rfl, rfl, rfl⟩ rfl (by simp)
      ⟨rfl, ⟨true, "X", some []⟩, [], rfl, rfl, rfl, by decide⟩).2.2 rfl).1⟩

/-- A path the CLI processes successfully: it exists, is a regular file,
and `calculate_neural_hash` returns a hash for it. -/
def pathSucceeds (p : PathCase) : Prop :=
  p.pathExists = true ∧ p.isFile = true ∧ ∃ h, p.hashResult = Except.ok h

theorem mainLoop_snd_one :
    ∀ (paths : List PathCase) (anySucc : Bool),
      (mainLoop paths anySucc 1).2 = 1 := by
  intro paths
  induction paths with
  | nil => intro _; rfl
  | cons p rest ih =>
    intro anySucc
    cases hpe : p.pathExists
    · simp [mainLoop, hpe, ih]
    · cases hif : p.isFile
      · simp [mainLoop, hpe, hif, ih]
      · cases hres : p.hashResult with
        | ok v => simp [mainLoop, hpe, hif, hres, ih]
        | error e =>
          by_cases hcls : e.cls = NHClass.PyObjCNotAvailableErrorC
          · simp [mainLoop, hpe, hif, hres, hcls]
          · simp [mainLoop, hpe, hif, hres, hcls, ih]

theorem mainLoop_fst_true :
    ∀ (paths : List PathCase) (code : Nat),
      (mainLoop paths true code).1 = true := by
  intro paths
  induction paths with
  | nil => intro _; rfl
  | cons p rest ih =>
    intro code
    cases hpe : p.pathExists
    · simp [mainLoop, hpe, ih]
    · cases hif : p.isFile
      · simp [mainLoop, hpe, hif, ih]
      · cases hres : p.hashResult with
        | ok v => simp [mainLoop, hpe, hif, hres, ih]
        | error e =>
          by_cases hcls : e.cls = NHClass.PyObjCNotAvailableErrorC
          · simp [mainLoop, hpe, hif, hres, hcls]
          · simp [mainLoop, hpe, hif, hres, hcls, ih]

theorem mainLoop_zero_iff :
    ∀ (paths : List PathCase) (anySucc : Bool),
      (mainLoop paths anySucc 0).2 = 0 ↔ ∀ p ∈ paths, pathSucceeds p := by
  intro paths
  induction paths with
  | nil => intro _; simp [mainLoop]
  | cons p rest ih =>
    intro anySucc
    cases hpe : p.pathExists
    case false =>
      have hL : (mainLoop (p :: rest) anySucc 0).2 = 1 := by
        simp [mainLoop, hpe, mainLoop_snd_one]
      constructor
      · intro hc
        rw [hL] at hc
        exact absurd hc one_ne_zero
      · intro hall
        have h1 := (hall p (List.mem_cons_self p rest)).1
        rw [hpe] at h1
        exact absurd h1 (by decide)
    case true =>
      cases hif : p.isFile
      case false =>
        have hL : (mainLoop (p :: rest) anySucc 0).2 = 1 := by
          simp [mainLoop, hpe, hif, mainLoop_snd_one]
        constructor
        · intro hc
          rw [hL] at hc
          exact absurd hc one_ne_zero
        · intro hall
          have h1 := (hall p (List.mem_cons_self p rest)).2.1
          rw [hif] at h1
          exact absurd h1 (by decide)
      case true =>
        cases hres : p.hashResult with
        | ok v =>
          have hL : mainLoop (p :: rest) anySucc 0 = mainLoop rest true 0 := by
            simp [mainLoop, hpe, hif, hres]
          rw [hL, ih true]
          constructor
          · intro hall q hq
            rcases List.mem_cons.mp hq with hq | hq
            · rw [hq]
              exact ⟨hpe, hif, v, hres⟩
            · exact hall q hq
          · intro hall q hq
            exact hall q (List.mem_cons_of_mem p hq)
        | error e =>
          have hL : (mainLoop (p :: rest) anySucc 0).2 = 1 := by
            by_cases hcls : e.cls = NHClass.PyObjCNotAvailableErrorC
            · simp [mainLoop, hpe, hif, hres, hcls]
            · simp [mainLoop, hpe, hif, hres, hcls, mainLoop_snd_one]
          constructor
          · intro hc
            rw [hL] at hc
            exact absurd hc one_ne_zero
          · intro hall
            obtain ⟨_, _, v, hv⟩ := hall p (List.mem_cons_self p rest)
            rw [hres] at hv
            exact Except.noConfusion hv

/-- C3 counterexample: a two-path batch whose first path fails with a hash
error and whose second path succeeds exits with code 1, not 0 — a batch
with at least one success does not yield exit code 0. -/
theorem batch_with_success_nonzero_exit_counterexample :
    cli_main true
        [⟨true, true, Except.error (NHError.neuralHashError ("boom"))⟩,
          ⟨true, true, Except.ok ("hash1")⟩]
      = 1 := by
  decide

/-- C3 (amended): with PyObjC available and a non-empty path list, the CLI
exit code is 0 exactly when every path succeeds; any per-path failure
forces a non-zero exit code even when another path succeeds, and in
particular the exit code is non-zero when no path succeeds. -/
theorem cli_exit_zero_iff_all_succeed (avail : Bool) (paths : List PathCase)
    (hav : avail = true) (hne : paths ≠ []) :
    cli_main avail paths = 0 ↔ ∀ p ∈ paths, pathSucceeds p := by
  subst hav
  have hcm : cli_main true paths
      = (if (mainLoop paths false 0).1 = false ∧ paths.isEmpty = false
          then max 1 (mainLoop paths false 0).2
          else (mainLoop paths false 0).2) := by
    simp [cli_main]
  have hfst : (∀ p ∈ paths, pathSucceeds p) →
      (mainLoop paths false 0).1 = true := by
    intro hall
    cases paths with
    | nil => exact absurd rfl hne
    | cons p rest =>
      obtain ⟨he, hf, v, hv⟩ := hall p (List.mem_cons_self p rest)
      simp [mainLoop, he, hf, hv, mainLoop_fst_true]
  rw [hcm]
  by_cases hc : (mainLoop paths false 0).1 = false ∧ paths.isEmpty = false
  · rw [if_pos hc]
    constructor
    · intro h0
      exfalso
      have hge : 1 ≤ max 1 (mainLoop paths false 0).2 := Nat.le_max_left _ _
      omega
    · intro hall
      exfalso
      have h1 := hfst hall
      rw [h1] at hc
      exact absurd hc.1 (by decide)
  · rw [if_neg hc]
    exact mainLoop_zero_iff paths false

/-- C3 witness: the amended exit-code property at a concrete single-path
batch that succeeds. -/
theorem cli_exit_zero_iff_all_succeed_witness :
    (true : Bool) = true ∧
    ([⟨true, true, Except.ok ("h")⟩] : List PathCase) ≠ [] ∧
    (cli_main true [⟨true, true, Except.ok ("h")⟩] = 0 ↔
      ∀ p ∈ ([⟨true, true, Except.ok ("h")⟩] : List PathCase),
        pathSucceeds p) :=
  ⟨rfl, by simp,
    cli_exit_zero_iff_all_succeed true [⟨true, true, Except.ok ("h")⟩]
      rfl (by simp)⟩
